import Mathlib

/-!
# coleo: raw-mode terminal session, key reader and screen refresh

A shallow embedding of `src/coleo.c` and the properties of its
specification.

Modelling conventions.

* The process and its terminal are an explicit `World`: the attributes the
  terminal driver holds for standard input, the global `E.orig_termios`,
  the functions registered with `atexit`, one trace holding, in the order
  they happen, the calls of `write` on standard output and the diagnostics
  `perror` puts on standard error, `errno`, and the results that the coming
  `read` calls on standard input will deliver.
* What the operating system decides is an oracle inside the `World`:
  whether `tcgetattr` fails, whether the k-th `tcsetattr` call fails, whether
  the k-th `write` call fails, what each `read` returns.
* A C function that may call `exit` returns an `Outcome`: it came back with a
  value, it called `exit(status)`, or it waits for input for ever.
* The constants of `<termios.h>` and `<errno.h>` are not part of the
  repository; the functions take them as a parameter `K : Consts`.
  `linux` holds their values on Linux and serves for the concrete runs.
* `tcflag_t` is an unsigned 32-bit integer, modelled as a `Nat` with the
  wrap-around written out.
-/

namespace Coleo

/-! ## Constants taken from the system headers -/

/-- Values of the macros of `<termios.h>` and `<errno.h>` the program uses.
`EINTR` is not used by the code; the specification names it. -/
structure Consts where
  BRKINT : Nat
  ICRNL : Nat
  INPCK : Nat
  ISTRIP : Nat
  IXON : Nat
  OPOST : Nat
  CS8 : Nat
  ECHO : Nat
  ICANON : Nat
  IEXTEN : Nat
  ISIG : Nat
  VMIN : Nat
  VTIME : Nat
  EAGAIN : Nat
  EINTR : Nat
deriving DecidableEq, Repr

/-- The values of the constants on Linux (glibc, x86-64). -/
def linux : Consts where
  BRKINT := 0x2
  ICRNL := 0x100
  INPCK := 0x10
  ISTRIP := 0x20
  IXON := 0x400
  OPOST := 0x1
  CS8 := 0x30
  ECHO := 0x8
  ICANON := 0x2
  IEXTEN := 0x8000
  ISIG := 0x1
  VMIN := 6
  VTIME := 5
  EAGAIN := 11
  EINTR := 4

/-! ## Data -/

/-- The terminal attributes, `struct termios` (layout of glibc on Linux):
four flag words of type `tcflag_t`, the line discipline, the control
characters `c_cc` and the two speeds. -/
structure termios where
  c_iflag : Nat
  c_oflag : Nat
  c_cflag : Nat
  c_lflag : Nat
  c_line : Nat
  c_cc : List Nat
  c_ispeed : Nat
  c_ospeed : Nat
deriving DecidableEq, Repr

/-- What one `read(STDIN_FILENO, &c, 1)` delivers: one byte (return value 1),
nothing before the timeout (return value 0), or an error (return value -1 with
`errno` set). -/
inductive ReadResult where
  | byte (b : Nat)
  | timeout
  | error (e : Nat)
deriving DecidableEq, Repr

/-- The functions the program registers with `atexit`; `disableRawMode` is
the only one. -/
inductive Handler where
  | disableRawMode
deriving DecidableEq, Repr

/-- What the process puts out: a call `write(STDOUT_FILENO, ...)` with its
payload, or a diagnostic of `perror`, the context string with the `errno` it
describes. -/
inductive Event where
  | write (payload : List Nat)
  | diagnostic (s : String) (errno : Nat)
deriving DecidableEq, Repr

/-- The process together with its terminal.

* `tty`: the attributes the driver holds for standard input;
* `tcgetattrErr`: the `errno` of the `tcgetattr` call when it fails;
* `tcsetattrErr k`: the `errno` of the k-th `tcsetattr` call (counted from 0)
  when it fails, and `tcsetattrCalls` the number of calls made so far;
* `stdin`: the results of the coming `read` calls; once they are used up every
  further `read` times out with zero bytes;
* `writeErr k`: the `errno` of the k-th `write` call on standard output
  (counted from 0) when it fails, and `writeCalls` the number of calls made
  so far;
* `trace`: every `write` call on standard output and every diagnostic of
  `perror`, in the order they happen;
* `E_orig_termios`: the global `E.orig_termios`;
* `atexitHandlers`: the registered exit handlers, the last registered first. -/
structure World where
  tty : termios
  tcgetattrErr : Option Nat
  tcsetattrErr : Nat → Option Nat
  tcsetattrCalls : Nat
  stdin : List ReadResult
  writeErr : Nat → Option Nat
  writeCalls : Nat
  trace : List Event
  errno : Nat
  E_orig_termios : termios
  atexitHandlers : List Handler

/-- How a call of a C function of the program ends: it returns `a` to its
caller, it calls `exit(status)` (and control never comes back), or it keeps
waiting for input for ever. -/
inductive Outcome (α : Type) where
  | returned (a : α) (w : World)
  | exitCalled (status : Nat) (w : World)
  | spins

/-- How the process ends: terminated with an exit status, waiting for input
for ever, or still in its main loop after the iterations looked at. -/
inductive ProcessEnd where
  | terminated (status : Nat) (w : World)
  | spins
  | running (w : World)

/-! ## The C library and the operating system -/

/-- The string literal "\x1b[2J": clear the entire screen. -/
def ESC_2J : List Nat := [0x1b, 0x5b, 0x32, 0x4a]

/-- The string literal "\x1b[H": move the cursor to row 1, column 1. -/
def ESC_H : List Nat := [0x1b, 0x5b, 0x48]

/-- The string literal "~\r\n": the marker of one row. -/
def ROW_MARKER : List Nat := [0x7e, 0x0d, 0x0a]

/-- The call `write(STDOUT_FILENO, buf, count)`: the first `count` bytes of `buf`
are passed to standard output in one call, which the trace records. A call
that fails sets `errno`; a call that succeeds leaves it. The program never
looks at the return value of `write`. -/
def writeStdout (buf : List Nat) (count : Nat) (w : World) : World :=
  { w with
    trace := w.trace ++ [.write (buf.take count)]
    writeCalls := w.writeCalls + 1
    errno := match w.writeErr w.writeCalls with
      | none => w.errno
      | some e => e }

/-- The payloads of the `write` calls of a trace, in order. -/
def traceStdout : List Event → List (List Nat)
  | [] => []
  | .write payload :: es => payload :: traceStdout es
  | .diagnostic _ _ :: es => traceStdout es

/-- The diagnostics of a trace, in order. -/
def traceStderr : List Event → List (String × Nat)
  | [] => []
  | .write _ :: es => traceStderr es
  | .diagnostic s e :: es => (s, e) :: traceStderr es

/-- The payload of every `write` call on standard output, in order. -/
def World.stdout (w : World) : List (List Nat) := traceStdout w.trace

/-- The diagnostics of `perror` on standard error, in order. -/
def World.stderr (w : World) : List (String × Nat) := traceStderr w.trace

/-- All bytes written to standard output, in order. -/
def World.stdoutBytes (w : World) : List Nat := w.stdout.flatten

/-- The call `perror(s)`: the diagnostic for the current `errno`, prefixed with
`s`, goes to standard error. -/
def perror (s : String) (w : World) : World :=
  { w with trace := w.trace ++ [.diagnostic s w.errno] }

/-- The call `tcgetattr(STDIN_FILENO, &t)`: the return value, the attributes
read (on failure the caller's structure keeps its contents `t`) and the world
afterwards. -/
def tcgetattr (t : termios) (w : World) : Int × termios × World :=
  match w.tcgetattrErr with
  | none => (0, w.tty, w)
  | some e => (-1, t, { w with errno := e })

/-- The call `tcsetattr(STDIN_FILENO, TCSAFLUSH, &t)`: on success the driver holds
exactly `t`. -/
def tcsetattr (t : termios) (w : World) : Int × World :=
  match w.tcsetattrErr w.tcsetattrCalls with
  | none => (0, { w with tty := t, tcsetattrCalls := w.tcsetattrCalls + 1 })
  | some e => (-1, { w with errno := e, tcsetattrCalls := w.tcsetattrCalls + 1 })

/-- The call `atexit(h)`. ISO C guarantees room for 32 handlers and the program
registers one, so the registration succeeds. -/
def atexit (h : Handler) (w : World) : World :=
  { w with atexitHandlers := h :: w.atexitHandlers }

/-- One call `read(STDIN_FILENO, &c, 1)` delivering `r`: the return value, the
contents of `c` afterwards and the world afterwards. -/
def read (r : ReadResult) (c : Nat) (w : World) : Int × Nat × World :=
  match r with
  | .byte b => (1, b, w)
  | .timeout => (0, c, w)
  | .error e => (-1, c, { w with errno := e })

/-! ## The program -/

/-- The macro `CTRL_KEY(k)`, that is `((k) & 0x1f)`. -/
def CTRL_KEY (k : Nat) : Nat := k &&& 0x1f

/-- The function `die`: clear the screen, home the cursor, print the
diagnostic, `exit(1)`. -/
def die {α : Type} (s : String) (w : World) : Outcome α :=
  let w1 := writeStdout ESC_2J 4 w
  let w2 := writeStdout ESC_H 3 w1
  let w3 := perror s w2
  .exitCalled 1 w3

/-- The function `disableRawMode`. -/
def disableRawMode (w : World) : Outcome Unit :=
  match tcsetattr w.E_orig_termios w with
  | (r, w1) => if r == -1 then die "tcsettattr" w1 else .returned () w1

/-- The operand `~(m)` of an `&=` on a `tcflag_t`: the complement of the `int`
value `m`, converted to unsigned 32 bits. -/
def compl32 (m : Nat) : Nat := 0xffffffff ^^^ (m % 0x100000000)

/-- Lines 62 to 76 of `enableRawMode`: the attributes `raw` derived from the
saved ones. -/
def makeRaw (K : Consts) (orig : termios) : termios :=
  let raw := orig
  let iMask := K.BRKINT ||| K.ICRNL ||| K.INPCK ||| K.ISTRIP ||| K.IXON
  let lMask := K.ECHO ||| K.ICANON ||| K.IEXTEN ||| K.ISIG
  let raw := { raw with c_iflag := raw.c_iflag &&& compl32 iMask }
  let raw := { raw with c_oflag := raw.c_oflag &&& compl32 K.OPOST }
  let raw := { raw with c_cflag := (raw.c_cflag ||| K.CS8) % 0x100000000 }
  let raw := { raw with c_lflag := raw.c_lflag &&& compl32 lMask }
  let raw := { raw with c_cc := raw.c_cc.set K.VMIN 0 }
  let raw := { raw with c_cc := raw.c_cc.set K.VTIME 1 }
  raw

/-- The function `enableRawMode`. -/
def enableRawMode (K : Consts) (w : World) : Outcome Unit :=
  match tcgetattr w.E_orig_termios w with
  | (r, t, w1) =>
    let w2 := { w1 with E_orig_termios := t }
    if r == -1 then die "tcgetattr" w2 else
    let w3 := atexit .disableRawMode w2
    let raw := makeRaw K w3.E_orig_termios
    match tcsetattr raw w3 with
    | (r2, w4) => if r2 == -1 then die "tcsetattr" w4 else .returned () w4

/-- The loop of `editorReadKey`, over the results of the coming reads; `c` is
the local variable. With no result left every read times out, and the loop
never ends. -/
def editorReadKeyLoop (K : Consts) : List ReadResult → Nat → World → Outcome Nat
  | [], _, _ => .spins
  | r :: rest, c, w =>
    match read r c { w with stdin := rest } with
    | (nread, c1, w1) =>
      if nread != 1 then
        if nread == -1 && w1.errno != K.EAGAIN then die "read" w1
        else editorReadKeyLoop K rest c1 w1
      else .returned c1 w1

/-- The function `editorReadKey`; the local `c` starts with an arbitrary
content, here 0. -/
def editorReadKey (K : Consts) (w : World) : Outcome Nat :=
  editorReadKeyLoop K w.stdin 0 w

/-- The contents of `struct winsize`. -/
structure winsize where
  ws_row : Nat
  ws_col : Nat
  ws_xpixel : Nat
  ws_ypixel : Nat
deriving DecidableEq, Repr

/-- The function `getWindowSize`. `ret` and `ws` are the return value of the
`ioctl` call and the contents of `ws` after it; `rows` and `cols` are the
contents of the caller's variables before the call. The result is the return
value with the contents of `*rows` and `*cols` afterwards. -/
def getWindowSize (ret : Int) (ws : winsize) (rows cols : Int) : Int × Int × Int :=
  if ret == -1 || ws.ws_col == 0 then
    (-1, rows, cols)
  else
    let cols1 : Int := ws.ws_col
    let rows1 : Int := ws.ws_row
    (0, rows1, cols1)

/-- The function `editorDrawRows`: the loop `for (y = 0; y < 24; y++)`. -/
def editorDrawRows (w : World) : World :=
  (List.range 24).foldl (fun w1 _y => writeStdout ROW_MARKER 3 w1) w

/-- The function `editorRefreshScreen`. -/
def editorRefreshScreen (w : World) : World :=
  let w1 := writeStdout ESC_2J 4 w
  let w2 := writeStdout ESC_H 3 w1
  let w3 := editorDrawRows w2
  writeStdout ESC_H 3 w3

/-- The function `editorProcessKeypress`. -/
def editorProcessKeypress (K : Consts) (w : World) : Outcome Unit :=
  match editorReadKey K w with
  | .returned c w1 =>
    if c = CTRL_KEY 0x71 then
      let w2 := writeStdout ESC_2J 4 w1
      let w3 := writeStdout ESC_H 3 w2
      .exitCalled 0 w3
    else .returned () w1
  | .exitCalled status w1 => .exitCalled status w1
  | .spins => .spins

/-- Calling a registered handler. -/
def callHandler (h : Handler) (w : World) : Outcome Unit :=
  match h with
  | .disableRawMode => disableRawMode w

/-- The handlers still to be called, run in order. A handler that itself
calls `exit(status1)` (through `die`) hands over to that call, which goes on with
the handlers not called yet and ends the process with `status1`. -/
def runHandlers : List Handler → Nat → World → ProcessEnd
  | [], status, w => .terminated status w
  | h :: hs, status, w =>
    match callHandler h w with
    | .returned _ w1 => runHandlers hs status w1
    | .exitCalled status1 w1 => runHandlers hs status1 w1
    | .spins => .spins

/-- The call `exit(status)`: the registered handlers run, the last registered
first, then the process ends with `status`. -/
def exit (status : Nat) (w : World) : ProcessEnd :=
  runHandlers w.atexitHandlers status { w with atexitHandlers := [] }

/-- The loop `while (1)` of `main`, followed for at most `n` iterations. -/
def mainLoop (K : Consts) : Nat → World → ProcessEnd
  | 0, w => .running w
  | n + 1, w =>
    match editorProcessKeypress K (editorRefreshScreen w) with
    | .returned _ w1 => mainLoop K n w1
    | .exitCalled status w1 => exit status w1
    | .spins => .spins

/-- The function `main`, its loop followed for at most `n` iterations. -/
def main (K : Consts) (n : Nat) (w : World) : ProcessEnd :=
  match enableRawMode K w with
  | .returned _ w1 => mainLoop K n w1
  | .exitCalled status w1 => exit status w1
  | .spins => .spins

/-! ## Notions of the specification -/

/-- The predicate "uppercase or lowercase ASCII letter". -/
def isAsciiLetter (k : Nat) : Prop := (0x41 ≤ k ∧ k ≤ 0x5a) ∨ (0x61 ≤ k ∧ k ≤ 0x7a)

/-- The lowercase of an ASCII code: the uppercase letters move up by 32, every
other code stays. -/
def toLowerCase (k : Nat) : Nat := if 0x41 ≤ k ∧ k ≤ 0x5a then k + 32 else k

/-- The number of positions of `xs` at which `pat` starts. -/
def countOcc (pat : List Nat) : List Nat → Nat
  | [] => if pat = [] then 1 else 0
  | x :: xs => (if pat.isPrefixOf (x :: xs) then 1 else 0) + countOcc pat xs

/-- The world before `main` starts, on a terminal with attributes `A`: the
global `E` is zero-initialised, nothing is registered, nothing written; no
`write` fails. -/
def initialWorld (A : termios) (getErr : Option Nat) (setErr : Nat → Option Nat)
    (input : List ReadResult) : World where
  tty := A
  tcgetattrErr := getErr
  tcsetattrErr := setErr
  tcsetattrCalls := 0
  stdin := input
  writeErr := fun _ => none
  writeCalls := 0
  trace := []
  errno := 0
  E_orig_termios := ⟨0, 0, 0, 0, 0, List.replicate 32 0, 0, 0⟩
  atexitHandlers := []

/-- A cooked-mode terminal as Linux sets it up (the values `stty -a` shows on a
fresh terminal). -/
def cookedLinux : termios where
  c_iflag := 0x4500
  c_oflag := 0x5
  c_cflag := 0xbf
  c_lflag := 0x8a3b
  c_line := 0
  c_cc := [3, 28, 127, 21, 4, 0, 1, 0, 17, 19, 26, 0, 18, 15, 23, 22,
           0, 0, 0, 0, 0, 0, 0, 0, 0, 0, 0, 0, 0, 0, 0, 0]
  c_ispeed := 15
  c_ospeed := 15

/-- The write calls of one screen refresh, in order. -/
def frameWrites : List (List Nat) :=
  [ESC_2J, ESC_H] ++ List.replicate 24 ROW_MARKER ++ [ESC_H]

/-- The bytes between the two home-cursor sequences of a frame. -/
def frameRows : List Nat := (List.replicate 24 ROW_MARKER).flatten

/-- The part of the world that only `tcsetattr`, `tcgetattr` and `atexit` touch
is the same in `w1` as in `w`. -/
def sameSession (w w1 : World) : Prop :=
  w1.tty = w.tty ∧ w1.E_orig_termios = w.E_orig_termios ∧
    w1.atexitHandlers = w.atexitHandlers ∧ w1.tcsetattrErr = w.tcsetattrErr ∧
    w1.tcsetattrCalls = w.tcsetattrCalls

/-- A session on a Linux terminal in which no system call fails and the keys
q and Ctrl-Q are typed. -/
def quitStart : World :=
  initialWorld cookedLinux none (fun _ => none) [.byte 0x71, .byte 0x11]

/-- The raw attributes derived from `cookedLinux` on Linux. -/
def rawLinux : termios :=
  { cookedLinux with
    c_iflag := 0x4000, c_oflag := 0x4, c_cflag := 0xbf, c_lflag := 0xa30,
    c_cc := [3, 28, 127, 21, 4, 1, 0, 0, 17, 19, 26, 0, 18, 15, 23, 22,
             0, 0, 0, 0, 0, 0, 0, 0, 0, 0, 0, 0, 0, 0, 0, 0] }

/-- The world of `quitStart` once `enableRawMode` has returned. -/
def quitRaw : World :=
  { quitStart with
    tty := rawLinux, E_orig_termios := cookedLinux, tcsetattrCalls := 1,
    atexitHandlers := [.disableRawMode] }

/-- The world of `quitStart` once the process has ended. -/
def quitEnd : World :=
  { quitStart with
    tty := cookedLinux, E_orig_termios := cookedLinux, tcsetattrCalls := 2,
    stdin := [], writeCalls := 56,
    trace := (frameWrites ++ frameWrites ++ [ESC_2J, ESC_H]).map .write }

/-- A session on a Linux terminal in which Ctrl-Q is typed and the second
`tcsetattr` call, the restoring one, fails with `errno` 5. -/
def failStart : World :=
  initialWorld cookedLinux none (fun k => if k = 1 then some 5 else none) [.byte 0x11]

/-- The world of `failStart` once `enableRawMode` has returned. -/
def failRaw : World :=
  { failStart with
    tty := rawLinux, E_orig_termios := cookedLinux, tcsetattrCalls := 1,
    atexitHandlers := [.disableRawMode] }

/-- The world of `failStart` once the process has ended. -/
def failEnd : World :=
  { failStart with
    tty := rawLinux, E_orig_termios := cookedLinux, tcsetattrCalls := 2,
    stdin := [], writeCalls := 31, errno := 5,
    trace := (frameWrites ++ [ESC_2J, ESC_H, ESC_2J, ESC_H]).map .write ++
      [.diagnostic "tcsettattr" 5] }

/-- A world in which standard output is closed, every `write` failing with
`errno` 9, and `tcgetattr` fails with `errno` 25. -/
def closedStart : World :=
  { initialWorld cookedLinux (some 25) (fun _ => none) [] with writeErr := fun _ => some 9 }

/-! # Theorems -/

/-! ## Output of the renderer -/

theorem traceStdout_append (xs ys : List Event) :
    traceStdout (xs ++ ys) = traceStdout xs ++ traceStdout ys := by
  induction xs with
  | nil => rfl
  | cons e es ih => cases e <;> simp [traceStdout, ih]

theorem traceStdout_map_write (ps : List (List Nat)) :
    traceStdout (ps.map .write) = ps := by
  induction ps with
  | nil => rfl
  | cons q qs ih => simp [traceStdout, ih]

theorem writeStdout_trace (buf : List Nat) (count : Nat) (w : World) :
    (writeStdout buf count w).trace = w.trace ++ [.write (buf.take count)] := rfl

theorem writeStdout_sameSession (buf : List Nat) (count : Nat) (w : World) :
    sameSession w (writeStdout buf count w) :=
  ⟨rfl, rfl, rfl, rfl, rfl⟩

theorem sameSession_refl (w : World) : sameSession w w :=
  ⟨rfl, rfl, rfl, rfl, rfl⟩

theorem sameSession_trans {w w1 w2 : World} (h1 : sameSession w w1) (h2 : sameSession w1 w2) :
    sameSession w w2 := by
  obtain ⟨a1, a2, a3, a4, a5⟩ := h1
  obtain ⟨b1, b2, b3, b4, b5⟩ := h2
  exact ⟨b1.trans a1, b2.trans a2, b3.trans a3, b4.trans a4, b5.trans a5⟩

theorem drawRows_fold (l : List Nat) (w : World) :
    (l.foldl (fun w1 _y => writeStdout ROW_MARKER 3 w1) w).trace =
        w.trace ++ (List.replicate l.length ROW_MARKER).map .write ∧
      sameSession w (l.foldl (fun w1 _y => writeStdout ROW_MARKER 3 w1) w) := by
  induction l generalizing w with
  | nil => exact ⟨by simp, sameSession_refl w⟩
  | cons y ys ih =>
    obtain ⟨h1, h2⟩ := ih (writeStdout ROW_MARKER 3 w)
    refine ⟨?_, sameSession_trans (writeStdout_sameSession _ _ w) h2⟩
    rw [List.foldl_cons, h1, writeStdout_trace]
    simp [List.replicate_succ, ROW_MARKER]

theorem editorDrawRows_trace (w : World) :
    (editorDrawRows w).trace = w.trace ++ (List.replicate 24 ROW_MARKER).map .write ∧
      sameSession w (editorDrawRows w) := by
  have h := drawRows_fold (List.range 24) w
  simpa [editorDrawRows] using h

theorem editorRefreshScreen_trace (w : World) :
    (editorRefreshScreen w).trace = w.trace ++ frameWrites.map .write := by
  unfold editorRefreshScreen
  simp only [writeStdout_trace, (editorDrawRows_trace _).1, frameWrites]
  simp [ESC_2J, ESC_H]

theorem editorRefreshScreen_eq (w : World) :
    (editorRefreshScreen w).stdout = w.stdout ++ frameWrites := by
  unfold World.stdout
  rw [editorRefreshScreen_trace, traceStdout_append, traceStdout_map_write]

theorem editorRefreshScreen_sameSession (w : World) : sameSession w (editorRefreshScreen w) := by
  unfold editorRefreshScreen
  exact sameSession_trans (writeStdout_sameSession _ _ _)
    (sameSession_trans (writeStdout_sameSession _ _ _)
      (sameSession_trans (editorDrawRows_trace _).2 (writeStdout_sameSession _ _ _)))

/-- C3: the bytes one `editorRefreshScreen` call writes to standard output are
exactly ESC[2J, ESC[H, 24 row markers "~\r\n", ESC[H; the clear-screen sequence
occurs once, the home-cursor sequence twice, exactly 24 row markers stand between
the two home-cursor sequences, and the three ESC bytes of the frame are the ones
that start these three sequences. -/
theorem editorRefreshScreen_bytes (w : World) :
    (editorRefreshScreen w).stdoutBytes =
        w.stdoutBytes ++ (ESC_2J ++ ESC_H ++ frameRows ++ ESC_H) ∧
      frameRows = (List.replicate 24 ROW_MARKER).flatten ∧
      countOcc ROW_MARKER frameRows = 24 ∧
      frameRows.length = 24 * ROW_MARKER.length ∧
      countOcc ESC_2J (ESC_2J ++ ESC_H ++ frameRows ++ ESC_H) = 1 ∧
      countOcc ESC_H (ESC_2J ++ ESC_H ++ frameRows ++ ESC_H) = 2 ∧
      (ESC_2J ++ ESC_H ++ frameRows ++ ESC_H).count 0x1b = 3 ∧
      frameRows.count 0x1b = 0 := by
  refine ⟨?_, rfl, by decide, by decide, by decide, by decide, by decide, by decide⟩
  unfold World.stdoutBytes
  rw [editorRefreshScreen_eq]
  simp [frameWrites, frameRows]

/-- C4 as stated fails: on the world before `main` starts, one
`editorRefreshScreen` call makes 27 write calls, not one. -/
theorem editorRefreshScreen_not_single_write :
    ¬ ∃ payload : List Nat,
      (editorRefreshScreen
        (initialWorld cookedLinux none (fun _ => none) [])).stdout = [payload] := by
  rw [editorRefreshScreen_eq]
  rintro ⟨payload, h⟩
  have hl := congrArg List.length h
  simp [initialWorld, frameWrites, World.stdout, traceStdout] at hl

/-- C4 amended: one `editorRefreshScreen` call makes exactly 27 write calls on
standard output, in this order: ESC[2J, ESC[H, the row marker 24 times, ESC[H;
their payloads put end to end are the whole frame. -/
theorem editorRefreshScreen_writes (w : World) :
    (editorRefreshScreen w).stdout =
        w.stdout ++ ([ESC_2J, ESC_H] ++ List.replicate 24 ROW_MARKER ++ [ESC_H]) ∧
      ([ESC_2J, ESC_H] ++ List.replicate 24 ROW_MARKER ++ [ESC_H]).length = 27 ∧
      ([ESC_2J, ESC_H] ++ List.replicate 24 ROW_MARKER ++ [ESC_H]).flatten =
        ESC_2J ++ ESC_H ++ frameRows ++ ESC_H := by
  refine ⟨?_, by decide, by decide⟩
  rw [editorRefreshScreen_eq]
  rfl

/-! ## The CTRL chord -/

/-- C5: for every uppercase or lowercase ASCII letter `k`, `CTRL_KEY k` equals
`CTRL_KEY (toLowerCase k)` and is below 0x20; `CTRL_KEY` of q and of Q are both
0x11. -/
theorem CTRL_KEY_letter_law (k : Nat) (hk : isAsciiLetter k) :
    CTRL_KEY k = CTRL_KEY (toLowerCase k) ∧ CTRL_KEY k < 0x20 ∧
      CTRL_KEY 0x71 = 0x11 ∧ CTRL_KEY 0x51 = 0x11 := by
  refine ⟨?_, ?_, by decide, by decide⟩
  · rcases hk with ⟨h1, h2⟩ | ⟨h1, h2⟩
    · interval_cases k <;> decide
    · have : ¬ (0x41 ≤ k ∧ k ≤ 0x5a) := by omega
      simp [toLowerCase, this]
  · rcases hk with ⟨h1, h2⟩ | ⟨h1, h2⟩ <;> interval_cases k <;> decide

theorem CTRL_KEY_letter_law_witness :
    isAsciiLetter 0x51 ∧ CTRL_KEY 0x51 = CTRL_KEY (toLowerCase 0x51) ∧
      CTRL_KEY 0x51 < 0x20 ∧ CTRL_KEY 0x71 = 0x11 ∧ CTRL_KEY 0x51 = 0x11 :=
  ⟨by unfold isAsciiLetter; decide,
   CTRL_KEY_letter_law 0x51 (by unfold isAsciiLetter; decide)⟩

/-! ## Terminal geometry -/

/-- C7: `getWindowSize` returns -1 exactly when the query errors or reports zero
columns; then the caller's rows and cols keep their contents; otherwise it
returns 0 with rows and cols set to the reported counts, and a successful
result never carries zero columns. -/
theorem getWindowSize_spec (ret : Int) (ws : winsize) (rows cols : Int) :
    ((getWindowSize ret ws rows cols).1 = -1 ↔ (ret = -1 ∨ ws.ws_col = 0)) ∧
      ((ret = -1 ∨ ws.ws_col = 0) →
        getWindowSize ret ws rows cols = (-1, rows, cols)) ∧
      (¬ (ret = -1 ∨ ws.ws_col = 0) →
        getWindowSize ret ws rows cols = (0, (ws.ws_row : Int), (ws.ws_col : Int))) ∧
      ((getWindowSize ret ws rows cols).1 = 0 →
        (getWindowSize ret ws rows cols).2.2 ≠ 0) ∧
      ((getWindowSize ret ws rows cols).1 = -1 ∨ (getWindowSize ret ws rows cols).1 = 0) := by
  by_cases h : ret = -1 ∨ ws.ws_col = 0
  · have hc : (ret == -1 || ws.ws_col == 0) = true := by
      rcases h with h | h <;> simp [h]
    simp [getWindowSize, hc, h]
  · have hc : (ret == -1 || ws.ws_col == 0) = false := by
      push_neg at h
      simp [h.1, h.2]
    push_neg at h
    simp [getWindowSize, hc, h.1, h.2]

theorem getWindowSize_spec_witness :
    getWindowSize 0 ⟨24, 0, 0, 0⟩ 5 7 = (-1, 5, 7) ∧
      getWindowSize (-1) ⟨24, 80, 0, 0⟩ 5 7 = (-1, 5, 7) ∧
      getWindowSize 0 ⟨24, 80, 0, 0⟩ 5 7 = (0, 24, 80) :=
  ⟨(getWindowSize_spec 0 ⟨24, 0, 0, 0⟩ 5 7).2.1 (Or.inr rfl),
   (getWindowSize_spec (-1) ⟨24, 80, 0, 0⟩ 5 7).2.1 (Or.inl rfl),
   (getWindowSize_spec 0 ⟨24, 80, 0, 0⟩ 5 7).2.2.1 (by decide)⟩

/-! ## The key reader -/

theorem editorReadKeyLoop_byte (K : Consts) (b c : Nat) (rest : List ReadResult) (w : World) :
    editorReadKeyLoop K (.byte b :: rest) c w = .returned b { w with stdin := rest } := by
  simp [editorReadKeyLoop, read]

theorem editorReadKeyLoop_timeout (K : Consts) (c : Nat) (rest : List ReadResult) (w : World) :
    editorReadKeyLoop K (.timeout :: rest) c w =
      editorReadKeyLoop K rest c { w with stdin := rest } := by
  simp [editorReadKeyLoop, read]

theorem editorReadKeyLoop_error (K : Consts) (e c : Nat) (rest : List ReadResult) (w : World) :
    editorReadKeyLoop K (.error e :: rest) c w =
      if e ≠ K.EAGAIN then die "read" { w with stdin := rest, errno := e }
      else editorReadKeyLoop K rest c { w with stdin := rest, errno := e } := by
  simp [editorReadKeyLoop, read]

theorem editorReadKeyLoop_timeouts (K : Consts) (b : Nat) (rest : List ReadResult) :
    ∀ (n c : Nat) (w : World),
      editorReadKeyLoop K (List.replicate n .timeout ++ .byte b :: rest) c w =
        .returned b { w with stdin := rest } := by
  intro n
  induction n with
  | zero => intro c w; simp [editorReadKeyLoop_byte]
  | succ n ih =>
    intro c w
    rw [List.replicate_succ, List.cons_append, editorReadKeyLoop_timeout, ih]

/-- C10: when the next `n` reads time out with zero bytes and the read after
them delivers the byte `b`, `editorReadKey` returns `b`, has consumed exactly
these `n + 1` reads and has changed nothing else: it neither exits nor spins. -/
theorem editorReadKey_after_timeouts (K : Consts) (n b : Nat) (rest : List ReadResult)
    (w : World) (h : w.stdin = List.replicate n .timeout ++ .byte b :: rest) :
    editorReadKey K w = .returned b { w with stdin := rest } ∧
      w.stdin.length = rest.length + (n + 1) := by
  constructor
  · unfold editorReadKey
    rw [h, editorReadKeyLoop_timeouts]
  · rw [h]; simp; omega

theorem editorReadKey_after_timeouts_witness :
    editorReadKey linux
        (initialWorld cookedLinux none (fun _ => none) [.timeout, .timeout, .byte 0x61, .byte 0x62]) =
      .returned 0x61
        { initialWorld cookedLinux none (fun _ => none) [.timeout, .timeout, .byte 0x61, .byte 0x62]
          with stdin := [.byte 0x62] } ∧
      (initialWorld cookedLinux none (fun _ => none)
        [.timeout, .timeout, .byte 0x61, .byte 0x62]).stdin.length = [ReadResult.byte 0x62].length + (2 + 1) :=
  editorReadKey_after_timeouts linux 2 0x61 [.byte 0x62]
    (initialWorld cookedLinux none (fun _ => none) [.timeout, .timeout, .byte 0x61, .byte 0x62]) rfl

/-- C8 as stated fails: on Linux a read that fails with EINTR (4, which is not
EAGAIN) is not retried; `editorReadKey` goes through `die("read")` and calls
`exit(1)`, although a byte was still to come. -/
theorem editorReadKey_EINTR_fatal :
    linux.EINTR ≠ linux.EAGAIN ∧
      ∃ w1 : World,
        editorReadKey linux
          (initialWorld cookedLinux none (fun _ => none) [.error linux.EINTR, .byte 0x61]) =
            .exitCalled 1 w1 ∧
        w1.stderr = [("read", linux.EINTR)] ∧ w1.stdin = [.byte 0x61] :=
  ⟨by decide, _, rfl, rfl, rfl⟩

/-- C8 amended: a failed read inside `editorReadKey` with error code `e` is fatal
(`die("read")`, which calls `exit(1)`) if and only if `e` is not EAGAIN; for EAGAIN
the loop goes on with the next read and this failure does not end the process. -/
theorem editorReadKey_read_error (K : Consts) (e c : Nat) (rest : List ReadResult) (w : World) :
    (e ≠ K.EAGAIN →
        editorReadKeyLoop K (.error e :: rest) c w =
          .exitCalled 1 (perror "read" (writeStdout ESC_H 3 (writeStdout ESC_2J 4
            { w with stdin := rest, errno := e })))) ∧
      (e = K.EAGAIN →
        editorReadKeyLoop K (.error e :: rest) c w =
          editorReadKeyLoop K rest c { w with stdin := rest, errno := e }) ∧
      (e = K.EAGAIN → ∀ (b : Nat) (rest2 : List ReadResult), rest = .byte b :: rest2 →
        editorReadKeyLoop K (.error e :: rest) c w =
          .returned b { w with stdin := rest2, errno := e }) := by
  rw [editorReadKeyLoop_error]
  by_cases h : e = K.EAGAIN
  · simp only [h, ne_eq, not_true_eq_false, if_false, true_implies, false_implies, true_and]
    intro b rest2 hr
    rw [hr, editorReadKeyLoop_byte]
  · simp [h, die]

theorem editorReadKey_read_error_witness :
    editorReadKeyLoop linux [.error 11, .byte 0x61] 0 quitRaw =
        .returned 0x61 { quitRaw with stdin := [], errno := 11 } ∧
      editorReadKeyLoop linux [.error 5, .byte 0x61] 0 quitRaw =
        .exitCalled 1 (perror "read" (writeStdout ESC_H 3 (writeStdout ESC_2J 4
          { quitRaw with stdin := [.byte 0x61], errno := 5 }))) :=
  ⟨(editorReadKey_read_error linux 11 0 [.byte 0x61] quitRaw).2.2 rfl 0x61 [] rfl,
   (editorReadKey_read_error linux 5 0 [.byte 0x61] quitRaw).1 (by decide)⟩

/-! ## What the loop leaves untouched -/

theorem editorReadKeyLoop_returned (K : Consts) :
    ∀ (l : List ReadResult) (c : Nat) (w w1 : World) (b : Nat),
      editorReadKeyLoop K l c w = .returned b w1 →
        sameSession w w1 ∧ w1.trace = w.trace := by
  intro l
  induction l with
  | nil => intro c w w1 b h; simp [editorReadKeyLoop] at h
  | cons r rest ih =>
    intro c w w1 b h
    cases r with
    | byte b0 =>
      rw [editorReadKeyLoop_byte] at h
      injection h with _ hw
      subst hw
      exact ⟨sameSession_refl _, rfl⟩
    | timeout =>
      rw [editorReadKeyLoop_timeout] at h
      have h2 := ih _ _ _ _ h
      exact h2
    | error e =>
      rw [editorReadKeyLoop_error] at h
      by_cases he : e = K.EAGAIN
      · simp only [he, ne_eq, not_true_eq_false, if_false] at h
        have h2 := ih _ _ _ _ h
        exact h2
      · simp [he, die] at h

theorem editorReadKeyLoop_exitCalled (K : Consts) :
    ∀ (l : List ReadResult) (c : Nat) (w w1 : World) (st : Nat),
      editorReadKeyLoop K l c w = .exitCalled st w1 →
        st = 1 ∧ sameSession w w1 := by
  intro l
  induction l with
  | nil => intro c w w1 st h; simp [editorReadKeyLoop] at h
  | cons r rest ih =>
    intro c w w1 st h
    cases r with
    | byte b0 =>
      rw [editorReadKeyLoop_byte] at h
      simp at h
    | timeout =>
      rw [editorReadKeyLoop_timeout] at h
      have h2 := ih _ _ _ _ h
      exact h2
    | error e =>
      rw [editorReadKeyLoop_error] at h
      by_cases he : e = K.EAGAIN
      · simp only [he, ne_eq, not_true_eq_false, if_false] at h
        have h2 := ih _ _ _ _ h
        exact h2
      · simp only [he, ne_eq, not_false_eq_true, if_true, die] at h
        injection h with hst hw
        subst hw
        exact ⟨hst.symm, sameSession_refl _⟩

theorem editorProcessKeypress_of_returned (K : Consts) (w w1 : World) (c : Nat)
    (h : editorReadKey K w = .returned c w1) :
    editorProcessKeypress K w =
      if c = 0x11 then .exitCalled 0 (writeStdout ESC_H 3 (writeStdout ESC_2J 4 w1))
      else .returned () w1 := by
  unfold editorProcessKeypress
  rw [h]
  have hq : CTRL_KEY 0x71 = 0x11 := by decide
  simp only [hq]

theorem editorProcessKeypress_returned (K : Consts) (w w1 : World)
    (h : editorProcessKeypress K w = .returned () w1) :
    sameSession w w1 ∧ w1.trace = w.trace := by
  unfold editorProcessKeypress at h
  cases hk : editorReadKey K w with
  | returned c w2 =>
    rw [hk] at h
    by_cases hc : c = CTRL_KEY 0x71
    · simp [hc] at h
    · simp only [hc, if_false] at h
      injection h with _ hw
      subst hw
      exact editorReadKeyLoop_returned K _ _ _ _ _ hk
  | exitCalled st w2 => rw [hk] at h; simp at h
  | spins => rw [hk] at h; simp at h

theorem editorProcessKeypress_exitCalled (K : Consts) (w w1 : World) (st : Nat)
    (h : editorProcessKeypress K w = .exitCalled st w1) :
    (st = 0 ∨ st = 1) ∧ sameSession w w1 := by
  unfold editorProcessKeypress at h
  cases hk : editorReadKey K w with
  | returned c w2 =>
    rw [hk] at h
    by_cases hc : c = CTRL_KEY 0x71
    · simp only [hc, if_true] at h
      injection h with hst hw
      subst hw
      exact ⟨Or.inl hst.symm, (editorReadKeyLoop_returned K _ _ _ _ _ hk).1⟩
    · simp [hc] at h
  | exitCalled st2 w2 =>
    rw [hk] at h
    injection h with hst hw
    subst hw
    subst hst
    have := editorReadKeyLoop_exitCalled K _ _ _ _ _ hk
    exact ⟨Or.inr this.1, this.2⟩
  | spins => rw [hk] at h; simp at h

/-! ## Leaving raw mode and the exit handlers -/

theorem disableRawMode_ok (w : World) (h : w.tcsetattrErr w.tcsetattrCalls = none) :
    disableRawMode w =
      .returned () { w with tty := w.E_orig_termios, tcsetattrCalls := w.tcsetattrCalls + 1 } := by
  simp [disableRawMode, tcsetattr, h]

theorem disableRawMode_fail (w : World) (e : Nat) (h : w.tcsetattrErr w.tcsetattrCalls = some e) :
    disableRawMode w =
      die "tcsettattr" { w with errno := e, tcsetattrCalls := w.tcsetattrCalls + 1 } := by
  simp [disableRawMode, tcsetattr, h]

theorem disableRawMode_cases (w : World) :
    (∃ w1, disableRawMode w = .returned () w1 ∧ w1.tty = w.E_orig_termios ∧
        w1.E_orig_termios = w.E_orig_termios) ∨
      (∃ w1, disableRawMode w = .exitCalled 1 w1 ∧ w1.tty = w.tty ∧
        w1.E_orig_termios = w.E_orig_termios) := by
  cases h : w.tcsetattrErr w.tcsetattrCalls with
  | none => exact Or.inl ⟨_, disableRawMode_ok w h, rfl, rfl⟩
  | some e => exact Or.inr ⟨_, disableRawMode_fail w e h, rfl, rfl⟩

theorem runHandlers_terminates :
    ∀ (hs : List Handler) (st : Nat) (w : World),
      ∃ st1 wf, runHandlers hs st w = .terminated st1 wf ∧ (st1 = st ∨ st1 = 1) := by
  intro hs
  induction hs with
  | nil => intro st w; exact ⟨st, w, rfl, Or.inl rfl⟩
  | cons h hs ih =>
    intro st w
    cases h
    rcases disableRawMode_cases w with ⟨w1, h1, _, _⟩ | ⟨w1, h1, _, _⟩
    · obtain ⟨st1, wf, h2, h3⟩ := ih st w1
      exact ⟨st1, wf, by simp [runHandlers, callHandler, h1, h2], h3⟩
    · obtain ⟨st1, wf, h2, h3⟩ := ih 1 w1
      refine ⟨st1, wf, by simp [runHandlers, callHandler, h1, h2], Or.inr ?_⟩
      rcases h3 with h3 | h3 <;> exact h3

theorem runHandlers_keeps_restored :
    ∀ (hs : List Handler) (st st1 : Nat) (w wf : World),
      w.tty = w.E_orig_termios → runHandlers hs st w = .terminated st1 wf →
        wf.tty = w.E_orig_termios := by
  intro hs
  induction hs with
  | nil =>
    intro st st1 w wf hw h
    simp only [runHandlers] at h
    injection h with _ h2
    subst h2
    exact hw
  | cons h hs ih =>
    intro st st1 w wf hw hr
    cases h
    rcases disableRawMode_cases w with ⟨w1, h1, h2, h3⟩ | ⟨w1, h1, h2, h3⟩
    · simp only [runHandlers, callHandler, h1] at hr
      rw [← h3]
      exact ih _ _ _ _ (h2.trans h3.symm) hr
    · simp only [runHandlers, callHandler, h1] at hr
      rw [← h3]
      exact ih _ _ _ _ ((h2.trans hw).trans h3.symm) hr

theorem exit_status_one (w : World) : ∃ wf, exit 1 w = .terminated 1 wf := by
  obtain ⟨st1, wf, h, h1⟩ := runHandlers_terminates w.atexitHandlers 1
    { w with atexitHandlers := [] }
  refine ⟨wf, ?_⟩
  unfold exit
  rw [h]
  rcases h1 with h1 | h1 <;> rw [h1]

theorem exit_restores (w wf : World) (hs : List Handler) (st st1 : Nat)
    (hreg : w.atexitHandlers = .disableRawMode :: hs)
    (hok : w.tcsetattrErr w.tcsetattrCalls = none)
    (h : exit st w = .terminated st1 wf) :
    wf.tty = w.E_orig_termios ∧ (st1 = st ∨ st1 = 1) := by
  unfold exit at h
  rw [hreg] at h
  have hd := disableRawMode_ok { w with atexitHandlers := [] } hok
  simp only [runHandlers, callHandler, hd] at h
  constructor
  · have := runHandlers_keeps_restored hs _ _ _ _ (by rfl) h
    exact this
  · obtain ⟨st2, wf2, h2, h3⟩ := runHandlers_terminates hs st
      { w with atexitHandlers := [], tty := w.E_orig_termios,
               tcsetattrCalls := w.tcsetattrCalls + 1 }
    rw [h2] at h
    injection h with h4 _
    rw [← h4]
    exact h3

theorem enableRawMode_returned (K : Consts) (w0 w1 : World)
    (h : enableRawMode K w0 = .returned () w1) :
    w0.tcgetattrErr = none ∧ w0.tcsetattrErr w0.tcsetattrCalls = none ∧
      w1 = { w0 with E_orig_termios := w0.tty, tty := makeRaw K w0.tty,
                     atexitHandlers := .disableRawMode :: w0.atexitHandlers,
                     tcsetattrCalls := w0.tcsetattrCalls + 1 } := by
  unfold enableRawMode at h
  cases hg : w0.tcgetattrErr with
  | some e => simp [tcgetattr, hg, die] at h
  | none =>
    cases hs : w0.tcsetattrErr w0.tcsetattrCalls with
    | some e => simp [tcgetattr, hg, tcsetattr, atexit, hs, die] at h
    | none =>
      simp [tcgetattr, hg, tcsetattr, atexit, hs] at h
      exact ⟨rfl, rfl, h.symm⟩

theorem mainLoop_restores (K : Consts) (hs : List Handler) :
    ∀ (n : Nat) (w wf : World) (st : Nat),
      w.atexitHandlers = .disableRawMode :: hs →
      w.tcsetattrErr w.tcsetattrCalls = none →
      mainLoop K n w = .terminated st wf →
        wf.tty = w.E_orig_termios ∧ (st = 0 ∨ st = 1) := by
  intro n
  induction n with
  | zero => intro w wf st _ _ h; simp [mainLoop] at h
  | succ n ih =>
    intro w wf st hreg hok h
    have hr := editorRefreshScreen_sameSession w
    unfold mainLoop at h
    cases hk : editorProcessKeypress K (editorRefreshScreen w) with
    | returned u w1 =>
      rw [hk] at h
      have hss := sameSession_trans hr (editorProcessKeypress_returned K _ _ hk).1
      obtain ⟨_, a2, a3, a4, a5⟩ := hss
      have := ih w1 wf st (a3.trans hreg) (by rw [a4, a5]; exact hok) h
      rw [a2] at this
      exact this
    | exitCalled st1 w1 =>
      rw [hk] at h
      obtain ⟨hst, hss2⟩ := editorProcessKeypress_exitCalled K _ _ _ hk
      obtain ⟨_, a2, a3, a4, a5⟩ := sameSession_trans hr hss2
      have := exit_restores w1 wf hs st1 st (a3.trans hreg) (by rw [a4, a5]; exact hok) h
      rw [a2] at this
      refine ⟨this.1, ?_⟩
      rcases this.2 with h1 | h1
      · rw [h1]; exact hst
      · exact Or.inr h1
    | spins => rw [hk] at h; simp at h

/-! ## Entering raw mode -/

theorem testBit_compl32 (m i : Nat) :
    (compl32 m).testBit i = (decide (i < 32) && !m.testBit i) := by
  unfold compl32
  have h1 : (0xffffffff : Nat) = 2 ^ 32 - 1 := by norm_num
  have h2 : (0x100000000 : Nat) = 2 ^ 32 := by norm_num
  rw [h1, h2, Nat.testBit_xor, Nat.testBit_two_pow_sub_one, Nat.testBit_mod_two_pow]
  by_cases h : i < 32 <;> simp [h]

theorem testBit_and_compl32 (a m i : Nat) (hi : i < 32) :
    (a &&& compl32 m).testBit i = (a.testBit i && !m.testBit i) := by
  rw [Nat.testBit_and, testBit_compl32]
  simp [hi]

theorem and_compl32_and_eq_zero (a m x : Nat)
    (hx : ∀ i, x.testBit i = true → m.testBit i = true) :
    (a &&& compl32 m) &&& x = 0 := by
  apply Nat.eq_of_testBit_eq
  intro i
  rw [Nat.testBit_and, Nat.testBit_and, testBit_compl32, Nat.zero_testBit]
  cases hxi : x.testBit i with
  | false => simp
  | true => simp [hx i hxi]

theorem testBit_or_mod (a m i : Nat) (hi : i < 32) :
    ((a ||| m) % 0x100000000).testBit i = (a.testBit i || m.testBit i) := by
  have h2 : (0x100000000 : Nat) = 2 ^ 32 := by norm_num
  rw [h2, Nat.testBit_mod_two_pow, Nat.testBit_or]
  simp [hi]

/-- C6: when `enableRawMode` returns, the attributes it has written are the
original ones `A` with ECHO, ICANON, IEXTEN and ISIG cleared in the local flags,
BRKINT, ICRNL, INPCK, ISTRIP and IXON cleared in the input flags, OPOST cleared in
the output flags, CS8 set in the control flags, `c_cc[VMIN] = 0` and
`c_cc[VTIME] = 1`; every other bit of the four 32-bit flag words, every other
slot of `c_cc` and the remaining fields are those of `A`, and `E.orig_termios`
holds `A` itself. -/
theorem enableRawMode_raw_attributes (K : Consts) (w0 w1 : World)
    (h : enableRawMode K w0 = .returned () w1)
    (hne : K.VMIN ≠ K.VTIME)
    (hmin : K.VMIN < w0.tty.c_cc.length) (htime : K.VTIME < w0.tty.c_cc.length) :
    w1.E_orig_termios = w0.tty ∧
      (∀ i, i < 32 → w1.tty.c_lflag.testBit i =
        (w0.tty.c_lflag.testBit i && !(K.ECHO ||| K.ICANON ||| K.IEXTEN ||| K.ISIG).testBit i)) ∧
      (w1.tty.c_lflag &&& K.ICANON = 0 ∧ w1.tty.c_lflag &&& K.ECHO = 0 ∧
        w1.tty.c_lflag &&& K.ISIG = 0 ∧ w1.tty.c_lflag &&& K.IEXTEN = 0) ∧
      (∀ i, i < 32 → w1.tty.c_iflag.testBit i =
        (w0.tty.c_iflag.testBit i &&
          !(K.BRKINT ||| K.ICRNL ||| K.INPCK ||| K.ISTRIP ||| K.IXON).testBit i)) ∧
      (w1.tty.c_iflag &&& K.ICRNL = 0 ∧ w1.tty.c_iflag &&& K.INPCK = 0 ∧
        w1.tty.c_iflag &&& K.ISTRIP = 0 ∧ w1.tty.c_iflag &&& K.IXON = 0 ∧
        w1.tty.c_iflag &&& K.BRKINT = 0) ∧
      (∀ i, i < 32 → w1.tty.c_oflag.testBit i =
        (w0.tty.c_oflag.testBit i && !K.OPOST.testBit i)) ∧
      w1.tty.c_oflag &&& K.OPOST = 0 ∧
      (∀ i, i < 32 → w1.tty.c_cflag.testBit i =
        (w0.tty.c_cflag.testBit i || K.CS8.testBit i)) ∧
      w1.tty.c_cc[K.VMIN]? = some 0 ∧ w1.tty.c_cc[K.VTIME]? = some 1 ∧
      (∀ j, j ≠ K.VMIN → j ≠ K.VTIME → w1.tty.c_cc[j]? = w0.tty.c_cc[j]?) ∧
      w1.tty.c_cc.length = w0.tty.c_cc.length ∧
      w1.tty.c_line = w0.tty.c_line ∧ w1.tty.c_ispeed = w0.tty.c_ispeed ∧
      w1.tty.c_ospeed = w0.tty.c_ospeed := by
  obtain ⟨_, _, hw⟩ := enableRawMode_returned K w0 w1 h
  subst hw
  refine ⟨rfl, ?_, ⟨?_, ?_, ?_, ?_⟩, ?_, ⟨?_, ?_, ?_, ?_, ?_⟩, ?_, ?_, ?_, ?_, ?_, ?_, ?_,
    rfl, rfl, rfl⟩
  · intro i hi; exact testBit_and_compl32 _ _ i hi
  · apply and_compl32_and_eq_zero; intro i hi; simp [Nat.testBit_or, hi]
  · apply and_compl32_and_eq_zero; intro i hi; simp [Nat.testBit_or, hi]
  · apply and_compl32_and_eq_zero; intro i hi; simp [Nat.testBit_or, hi]
  · apply and_compl32_and_eq_zero; intro i hi; simp [Nat.testBit_or, hi]
  · intro i hi; exact testBit_and_compl32 _ _ i hi
  · apply and_compl32_and_eq_zero; intro i hi; simp [Nat.testBit_or, hi]
  · apply and_compl32_and_eq_zero; intro i hi; simp [Nat.testBit_or, hi]
  · apply and_compl32_and_eq_zero; intro i hi; simp [Nat.testBit_or, hi]
  · apply and_compl32_and_eq_zero; intro i hi; simp [Nat.testBit_or, hi]
  · apply and_compl32_and_eq_zero; intro i hi; simp [Nat.testBit_or, hi]
  · intro i hi; exact testBit_and_compl32 _ _ i hi
  · apply and_compl32_and_eq_zero; intro i hi; exact hi
  · intro i hi; exact testBit_or_mod _ _ i hi
  · simp only [makeRaw]
    rw [List.getElem?_set_ne (Ne.symm hne), List.getElem?_set_self hmin]
  · simp only [makeRaw]
    rw [List.getElem?_set_self (by simpa using htime)]
  · intro j h1 h2
    simp only [makeRaw]
    rw [List.getElem?_set_ne (Ne.symm h2), List.getElem?_set_ne (Ne.symm h1)]
  · simp [makeRaw]

theorem enableRawMode_raw_attributes_witness :
    quitRaw.E_orig_termios = quitStart.tty ∧
      (∀ i, i < 32 → quitRaw.tty.c_lflag.testBit i =
        (quitStart.tty.c_lflag.testBit i &&
          !(linux.ECHO ||| linux.ICANON ||| linux.IEXTEN ||| linux.ISIG).testBit i)) ∧
      (quitRaw.tty.c_lflag &&& linux.ICANON = 0 ∧ quitRaw.tty.c_lflag &&& linux.ECHO = 0 ∧
        quitRaw.tty.c_lflag &&& linux.ISIG = 0 ∧ quitRaw.tty.c_lflag &&& linux.IEXTEN = 0) ∧
      (∀ i, i < 32 → quitRaw.tty.c_iflag.testBit i =
        (quitStart.tty.c_iflag.testBit i &&
          !(linux.BRKINT ||| linux.ICRNL ||| linux.INPCK ||| linux.ISTRIP ||| linux.IXON).testBit i)) ∧
      (quitRaw.tty.c_iflag &&& linux.ICRNL = 0 ∧ quitRaw.tty.c_iflag &&& linux.INPCK = 0 ∧
        quitRaw.tty.c_iflag &&& linux.ISTRIP = 0 ∧ quitRaw.tty.c_iflag &&& linux.IXON = 0 ∧
        quitRaw.tty.c_iflag &&& linux.BRKINT = 0) ∧
      (∀ i, i < 32 → quitRaw.tty.c_oflag.testBit i =
        (quitStart.tty.c_oflag.testBit i && !linux.OPOST.testBit i)) ∧
      quitRaw.tty.c_oflag &&& linux.OPOST = 0 ∧
      (∀ i, i < 32 → quitRaw.tty.c_cflag.testBit i =
        (quitStart.tty.c_cflag.testBit i || linux.CS8.testBit i)) ∧
      quitRaw.tty.c_cc[linux.VMIN]? = some 0 ∧ quitRaw.tty.c_cc[linux.VTIME]? = some 1 ∧
      (∀ j, j ≠ linux.VMIN → j ≠ linux.VTIME → quitRaw.tty.c_cc[j]? = quitStart.tty.c_cc[j]?) ∧
      quitRaw.tty.c_cc.length = quitStart.tty.c_cc.length ∧
      quitRaw.tty.c_line = quitStart.tty.c_line ∧ quitRaw.tty.c_ispeed = quitStart.tty.c_ispeed ∧
      quitRaw.tty.c_ospeed = quitStart.tty.c_ospeed :=
  enableRawMode_raw_attributes linux quitStart quitRaw rfl (by decide) (by decide) (by decide)

/-! ## The session as a whole -/

/-- C1: let the terminal attributes be `A = w0.tty` when `main` starts. If
`enableRawMode` returns and the restoring `tcsetattr` (the second call of the
process) succeeds, then whenever the process ends, by the quit key calling
`exit(0)` or by `die` calling `exit(1)`, the terminal attributes are `A` again,
field for field; the same holds for an `exit` called in any later world whose
session state is the one `enableRawMode` left. -/
theorem restoration_invariant (K : Consts) (n : Nat) (w0 w1 wf : World) (st : Nat)
    (hEnter : enableRawMode K w0 = .returned () w1)
    (hRestore : w0.tcsetattrErr (w0.tcsetattrCalls + 1) = none)
    (hExit : main K n w0 = .terminated st wf) :
    wf.tty = w0.tty ∧ (st = 0 ∨ st = 1) ∧ w1.E_orig_termios = w0.tty ∧
      (∀ (w wf2 : World) (st2 st3 : Nat), sameSession w1 w →
        exit st2 w = .terminated st3 wf2 → wf2.tty = w0.tty) := by
  have hmain : main K n w0 = mainLoop K n w1 := by
    unfold main
    rw [hEnter]
  obtain ⟨_, _, hw⟩ := enableRawMode_returned K w0 w1 hEnter
  have hreg : w1.atexitHandlers = .disableRawMode :: w0.atexitHandlers := by rw [hw]
  have hok : w1.tcsetattrErr w1.tcsetattrCalls = none := by rw [hw]; exact hRestore
  have horig : w1.E_orig_termios = w0.tty := by rw [hw]
  rw [hmain] at hExit
  have h1 := mainLoop_restores K w0.atexitHandlers n w1 wf st hreg hok hExit
  refine ⟨h1.1.trans horig, h1.2, horig, ?_⟩
  intro w wf2 st2 st3 hss hx
  obtain ⟨_, a2, a3, a4, a5⟩ := hss
  have h2 := exit_restores w wf2 w0.atexitHandlers st2 st3 (a3.trans hreg)
    (by rw [a4, a5]; exact hok) hx
  exact (h2.1.trans a2).trans horig

theorem restoration_invariant_witness :
    quitEnd.tty = quitStart.tty ∧ ((0 : Nat) = 0 ∨ (0 : Nat) = 1) ∧
      quitRaw.E_orig_termios = quitStart.tty ∧
      (∀ (w wf2 : World) (st2 st3 : Nat), sameSession quitRaw w →
        exit st2 w = .terminated st3 wf2 → wf2.tty = quitStart.tty) :=
  restoration_invariant linux 2 quitStart quitRaw quitEnd 0 rfl rfl rfl

/-- C2 as stated fails: on Linux, with Ctrl-Q typed and the restoring
`tcsetattr` of the exit handler failing, the key read returns 0x11 and
`editorProcessKeypress` calls `exit(0)`, but the process ends with status 1, the
terminal still raw, the clear and home sequences written twice and a
diagnostic after them. -/
theorem quit_with_failing_restore_ends_with_status_one :
    (∃ w1, editorReadKey linux (editorRefreshScreen failRaw) = .returned 0x11 w1 ∧
        editorProcessKeypress linux (editorRefreshScreen failRaw) =
          .exitCalled 0 (writeStdout ESC_H 3 (writeStdout ESC_2J 4 w1))) ∧
      main linux 1 failStart = .terminated 1 failEnd ∧
      failEnd.tty = rawLinux ∧
      failEnd.stdout = frameWrites ++ [ESC_2J, ESC_H, ESC_2J, ESC_H] ∧
      failEnd.stderr = [("tcsettattr", 5)] :=
  ⟨⟨_, rfl, rfl⟩, rfl, rfl, by decide, by decide⟩

theorem runHandlers_ok :
    ∀ (hs : List Handler) (st : Nat) (w : World),
      (∀ k, k < hs.length → w.tcsetattrErr (w.tcsetattrCalls + k) = none) →
      ∃ wf, runHandlers hs st w = .terminated st wf ∧ wf.trace = w.trace ∧
        wf.E_orig_termios = w.E_orig_termios ∧
        (hs = [] → wf.tty = w.tty) ∧ (hs ≠ [] → wf.tty = w.E_orig_termios) := by
  intro hs
  induction hs with
  | nil => intro st w _; exact ⟨w, rfl, rfl, rfl, fun _ => rfl, fun h => absurd rfl h⟩
  | cons h hs ih =>
    intro st w hok
    cases h
    have h0 : w.tcsetattrErr w.tcsetattrCalls = none := by
      have := hok 0 (by simp)
      simpa using this
    have hd := disableRawMode_ok w h0
    obtain ⟨wf, h1, h2, h3, h4, h5⟩ := ih st
      { w with tty := w.E_orig_termios, tcsetattrCalls := w.tcsetattrCalls + 1 }
      (by
        intro k hk
        have := hok (k + 1) (by simp; omega)
        have e : w.tcsetattrCalls + 1 + k = w.tcsetattrCalls + (k + 1) := by omega
        simpa [e] using this)
    refine ⟨wf, by simp [runHandlers, callHandler, hd, h1], h2, h3, fun hc => by simp at hc, ?_⟩
    intro _
    by_cases hn : hs = []
    · exact h4 hn
    · exact h5 hn

/-- C2 amended: for every byte `c` the key read returns, `editorProcessKeypress`
calls `exit` if and only if `c = 0x11`, which is `CTRL_KEY` of q; it then has
written exactly ESC[2J and ESC[H to standard output, no diagnostic, and the
status it passes to `exit` is 0; provided the restoring `tcsetattr` of every
registered exit handler succeeds, the process ends with status 0 and nothing
more is written. For every other byte, 0x71 included, it writes nothing and
returns. -/
theorem editorProcessKeypress_quit (K : Consts) (w w1 : World) (c : Nat)
    (h : editorReadKey K w = .returned c w1) :
    CTRL_KEY 0x71 = 0x11 ∧
      ((∃ st w2, editorProcessKeypress K w = .exitCalled st w2) ↔ c = 0x11) ∧
      (c = 0x11 →
        editorProcessKeypress K w =
            .exitCalled 0 (writeStdout ESC_H 3 (writeStdout ESC_2J 4 w1)) ∧
          (writeStdout ESC_H 3 (writeStdout ESC_2J 4 w1)).trace =
            w.trace ++ [.write ESC_2J, .write ESC_H] ∧
          (writeStdout ESC_H 3 (writeStdout ESC_2J 4 w1)).stdout =
            w.stdout ++ [ESC_2J, ESC_H]) ∧
      (c = 0x11 →
        (∀ k, k < w.atexitHandlers.length →
          w.tcsetattrErr (w.tcsetattrCalls + k) = none) →
        ∃ wf, exit 0 (writeStdout ESC_H 3 (writeStdout ESC_2J 4 w1)) = .terminated 0 wf ∧
          wf.trace = w.trace ++ [.write ESC_2J, .write ESC_H] ∧
          (w.atexitHandlers ≠ [] → wf.tty = w.E_orig_termios)) ∧
      (c ≠ 0x11 → editorProcessKeypress K w = .returned () w1 ∧ w1.trace = w.trace) := by
  have hp := editorProcessKeypress_of_returned K w w1 c h
  obtain ⟨⟨_, a2, a3, a4, a5⟩, hout⟩ := editorReadKeyLoop_returned K _ _ _ _ _ h
  have htr : (writeStdout ESC_H 3 (writeStdout ESC_2J 4 w1)).trace =
      w.trace ++ [.write ESC_2J, .write ESC_H] := by
    simp [writeStdout_trace, hout, ESC_2J, ESC_H]
  refine ⟨by decide, ?_, ?_, ?_, ?_⟩
  · by_cases hc : c = 0x11
    · simp [hp, hc]
    · simp [hp, hc]
  · intro hc
    refine ⟨by rw [hp]; simp [hc], htr, ?_⟩
    unfold World.stdout
    rw [htr, traceStdout_append]
    rfl
  · intro _ hok
    obtain ⟨wf, h1, h2, h3, _, h5⟩ := runHandlers_ok w1.atexitHandlers 0
      { writeStdout ESC_H 3 (writeStdout ESC_2J 4 w1) with atexitHandlers := [] }
      (by
        intro k hk
        rw [a3] at hk
        have := hok k hk
        show w1.tcsetattrErr (w1.tcsetattrCalls + k) = none
        rw [a4, a5]
        exact this)
    refine ⟨wf, h1, h2.trans htr, ?_⟩
    intro hne
    rw [← a3] at hne
    exact (h5 hne).trans a2
  · intro hc
    rw [hp]
    simp [hc, hout]

theorem editorProcessKeypress_quit_witness :
    editorProcessKeypress linux { quitRaw with stdin := [.byte 0x11] } =
        .exitCalled 0 (writeStdout ESC_H 3 (writeStdout ESC_2J 4 { quitRaw with stdin := [] })) ∧
      (∃ wf, exit 0 (writeStdout ESC_H 3 (writeStdout ESC_2J 4 { quitRaw with stdin := [] })) =
          .terminated 0 wf ∧
        wf.trace = [] ++ [.write ESC_2J, .write ESC_H] ∧
        (quitRaw.atexitHandlers ≠ [] → wf.tty = cookedLinux)) ∧
      editorProcessKeypress linux { quitRaw with stdin := [.byte 0x71] } =
        .returned () { quitRaw with stdin := [] } :=
  ⟨((editorProcessKeypress_quit linux { quitRaw with stdin := [.byte 0x11] }
      { quitRaw with stdin := [] } 0x11 rfl).2.2.1 rfl).1,
   (editorProcessKeypress_quit linux { quitRaw with stdin := [.byte 0x11] }
      { quitRaw with stdin := [] } 0x11 rfl).2.2.2.1 rfl (fun _ _ => rfl),
   ((editorProcessKeypress_quit linux { quitRaw with stdin := [.byte 0x71] }
      { quitRaw with stdin := [] } 0x71 rfl).2.2.2.2 (by decide)).1⟩

theorem die_errno (w : World) :
    (writeStdout ESC_H 3 (writeStdout ESC_2J 4 w)).errno =
      match w.writeErr (w.writeCalls + 1) with
      | none =>
        match w.writeErr w.writeCalls with
        | none => w.errno
        | some e => e
      | some e => e := rfl

/-- C9: `die s` never returns to its caller: it calls `write` with ESC[2J, then
`write` with ESC[H, on standard output, then `perror`, in this order and
nothing else, and calls `exit(1)`, after which the process ends with status 1
whatever the exit handlers do. The diagnostic describes the `errno` that
stands after the two writes: the one `die` was entered with when both writes
succeed. A failing `tcgetattr`, a failing `tcsetattr` in `enableRawMode` or in
`disableRawMode` and a fatal read error all go through `die`, so none of them
ends with status 0. -/
theorem die_spec (s : String) (w : World) :
    (∀ α : Type, ∃ w3, (die s w : Outcome α) = .exitCalled 1 w3 ∧
        w3.trace = w.trace ++ [.write ESC_2J, .write ESC_H,
          .diagnostic s (writeStdout ESC_H 3 (writeStdout ESC_2J 4 w)).errno] ∧
        sameSession w w3 ∧
        ∃ wf, exit 1 w3 = .terminated 1 wf) ∧
      (w.writeErr w.writeCalls = none → w.writeErr (w.writeCalls + 1) = none →
        (writeStdout ESC_H 3 (writeStdout ESC_2J 4 w)).errno = w.errno) ∧
      (∀ (K : Consts) (e : Nat), w.tcgetattrErr = some e →
        enableRawMode K w = die "tcgetattr" { w with errno := e }) ∧
      (∀ (K : Consts) (e : Nat), w.tcgetattrErr = none →
        w.tcsetattrErr w.tcsetattrCalls = some e →
        enableRawMode K w =
          die "tcsetattr" { w with E_orig_termios := w.tty,
                                   atexitHandlers := .disableRawMode :: w.atexitHandlers,
                                   errno := e, tcsetattrCalls := w.tcsetattrCalls + 1 }) ∧
      (∀ e : Nat, w.tcsetattrErr w.tcsetattrCalls = some e →
        disableRawMode w =
          die "tcsettattr" { w with errno := e, tcsetattrCalls := w.tcsetattrCalls + 1 }) ∧
      (∀ (K : Consts) (e c : Nat) (rest : List ReadResult), e ≠ K.EAGAIN →
        editorReadKeyLoop K (.error e :: rest) c w =
          die "read" { w with stdin := rest, errno := e }) ∧
      (∀ (hs : List Handler) (st : Nat), ∃ st1 wf,
        runHandlers hs st w = .terminated st1 wf ∧ (st1 = st ∨ st1 = 1)) := by
  refine ⟨fun _ => ⟨_, rfl, ?_, ?_, exit_status_one _⟩, ?_, ?_, ?_, ?_, ?_, ?_⟩
  · simp [perror, writeStdout, ESC_2J, ESC_H]
  · exact ⟨rfl, rfl, rfl, rfl, rfl⟩
  · intro h1 h2
    rw [die_errno, h2, h1]
  · intro K e h
    simp [enableRawMode, tcgetattr, h]
  · intro K e h1 h2
    simp [enableRawMode, tcgetattr, h1, tcsetattr, atexit, h2]
  · intro e h
    exact disableRawMode_fail w e h
  · intro K e c rest h
    rw [editorReadKeyLoop_error]
    simp [h]
  · intro hs st
    exact runHandlers_terminates hs st w

theorem die_spec_witness :
    disableRawMode { quitRaw with tcsetattrErr := fun _ => some 5 } =
        die "tcsettattr"
          { quitRaw with tcsetattrErr := fun _ => some 5, errno := 5, tcsetattrCalls := 1 + 1 } ∧
      enableRawMode linux closedStart = die "tcgetattr" { closedStart with errno := 25 } ∧
      (∃ w3, (die "tcgetattr" { closedStart with errno := 25 } : Outcome Unit) =
          .exitCalled 1 w3 ∧
        w3.trace = [] ++ [.write ESC_2J, .write ESC_H, .diagnostic "tcgetattr" 9] ∧
        sameSession { closedStart with errno := 25 } w3 ∧
        ∃ wf, exit 1 w3 = .terminated 1 wf) ∧
      (writeStdout ESC_H 3 (writeStdout ESC_2J 4 quitRaw)).errno = quitRaw.errno :=
  ⟨(die_spec "tcsettattr" { quitRaw with tcsetattrErr := fun _ => some 5 }).2.2.2.2.1 5 rfl,
   (die_spec "tcgetattr" closedStart).2.2.1 linux 25 rfl,
   (die_spec "tcgetattr" { closedStart with errno := 25 }).1 Unit,
   (die_spec "x" quitRaw).2.1 rfl rfl⟩

end Coleo
